import Mathlib

/-!
Verification development for the pcb-mag-generator repository.

The Python source builds parametric CAD solids (a slotted PCB frame, a
dovetail "bone" connector, and a six-part assembly) and exports them.
All length arithmetic of the source is embedded here over the rationals:
pure dimension computations become Lean functions, box/wedge features of
the CSG construction become decidable point-membership predicates, the
placement list of the assembly composer becomes a Lean list of placement
records, and the exporter's side effects become an explicit effect list.

Sources embedded:
  - src/models/frame_model.py  (constants, active_height, make_frame layout)
  - src/models/bone_model.py   (DEFAULTS, dovetail clamp, 13-point profile)
  - src/models/assembly.py     (make_assembly placement list)
  - src/exporter/exporter.py   (export_shape)
  - src/app.py                 (CLI format choices)
-/

/-! ## Frame model constants (src/models/frame_model.py) -/

/-- Inner window extends by LEN_EXTRA over the nominal PCB width a. -/
def LEN_EXTRA : ℚ := 5

/-- Base plate thickness. -/
def PLATE_T : ℚ := 8

/-- Rail (dovetail/guide) depth cut into the inner window. -/
def NOSE_DEPTH : ℚ := 3

/-- Frame wall thickness in X: 10 - NOSE_DEPTH. -/
def FRAME_WALL_X : ℚ := 10 - NOSE_DEPTH

/-- Frame wall thickness in Y. -/
def FRAME_WALL_Y : ℚ := 10

/-- Extra margin above and below the slot field. -/
def TOP_BOTTOM_MARGIN : ℚ := 2

/-- Connector opening height. -/
def CONNECTOR_H : ℚ := 5

/-- Connector opening width. -/
def CONNECTOR_W : ℚ := 6

/-- Connector opening X offset from the outer edge. -/
def CONNECTOR_XOFF : ℚ := 8

/-- Horizontal leg of the triangular cable chamfer wedge. -/
def CHAMFER_X : ℚ := 4

/-- Vertical leg of the triangular cable chamfer wedge. -/
def CHAMFER_Z : ℚ := PLATE_T

/-- Outer vertical corner chamfer size. -/
def OUTER_CORNER_CH : ℚ := 2

/-- Tiny bevel along the connector opening top edges. -/
def CONNECTOR_TOP_CH : ℚ := 1/2

/-- Total inner Y extent spanned by the slot field: n slots and (n+1)
noses (frame_model.active_height). -/
def active_height (n : ℕ) (slot_w nose_w : ℚ) : ℚ :=
  n * slot_w + (n + 1) * nose_w

/-- Inner window X dimension: a_len + LEN_EXTRA (make_frame). -/
def innerX (a : ℚ) : ℚ := a + LEN_EXTRA

/-- Inner window Y dimension: active_height n c d (make_frame). -/
def innerY (c d : ℚ) (n : ℕ) : ℚ := active_height n c d

/-- Outer plate X dimension (make_frame). -/
def outerX (a : ℚ) : ℚ := innerX a + 2 * FRAME_WALL_X

/-- Outer plate Y dimension (make_frame). -/
def outerY (c d : ℚ) (n : ℕ) : ℚ :=
  innerY c d n + 2 * (FRAME_WALL_Y + TOP_BOTTOM_MARGIN)

/-! ## Slot layout (make_frame slot cutting loop) -/

/-- Y coordinate where the first nose ends: y0 = -inner_y/2 + d_nose. -/
def y0Slots (c d : ℚ) (n : ℕ) : ℚ := -(innerY c d n) / 2 + d

/-- Center of slot i: y0 + (i + 0.5)*c_slot + i*d_nose (make_frame loop). -/
def slotCenterQ (c d : ℚ) (n : ℕ) (i : ℕ) : ℚ :=
  y0Slots c d n + ((i : ℚ) + 1/2) * c + (i : ℚ) * d

/-- The list of slot center Y coordinates cut by the make_frame loop. -/
def slotCenters (c d : ℚ) (n : ℕ) : List ℚ :=
  (List.range n).map (slotCenterQ c d n)

/-- Axis-aligned box given by its extremal coordinates. -/
structure Box3 where
  xmin : ℚ
  xmax : ℚ
  ymin : ℚ
  ymax : ℚ
  zmin : ℚ
  zmax : ℚ
deriving DecidableEq

/-- Box from a center point and full side lengths, as cq box(...) builds it. -/
def boxAt (cx cy cz lx ly lz : ℚ) : Box3 :=
  ⟨cx - lx/2, cx + lx/2, cy - ly/2, cy + ly/2, cz - lz/2, cz + lz/2⟩

/-- X center of the left rail: -inner_x/2 + NOSE_DEPTH/2. -/
def leftRailX (a : ℚ) : ℚ := -(innerX a) / 2 + NOSE_DEPTH / 2

/-- X center of the right rail: inner_x/2 - NOSE_DEPTH/2. -/
def rightRailX (a : ℚ) : ℚ := (innerX a) / 2 - NOSE_DEPTH / 2

/-- The slot cut boxes of the make_frame loop: for each slot center, a left
cut and a right cut of size NOSE_DEPTH x c_slot x (PLATE_T + 0.2). -/
def slotCutBoxes (a c d : ℚ) (n : ℕ) : List Box3 :=
  (slotCenters c d n).foldr
    (fun yc acc =>
      boxAt (leftRailX a) yc 0 NOSE_DEPTH c (PLATE_T + 1/5) ::
      boxAt (rightRailX a) yc 0 NOSE_DEPTH c (PLATE_T + 1/5) :: acc)
    []

/-! ## Bone model (src/models/bone_model.py) -/

/-- Parameter record of make_bone. -/
structure BoneParams where
  b : ℚ
  thickness : ℚ
  x_out : ℚ
  x_mid : ℚ
  x_in : ℚ
  l_dovetail : ℚ
  bone_w : ℚ
  edge_ch : ℚ
deriving DecidableEq

/-- DEFAULTS of bone_model.py. -/
def BONE_DEFAULTS : BoneParams :=
  { b := 80, thickness := 5, x_out := 7, x_mid := 5, x_in := 3
    l_dovetail := 8, bone_w := 10, edge_ch := 1/2 }

/-- Dovetail length actually used by make_bone: if l_dovetail <= 0 or
l_dovetail >= b/2 it is replaced by max(0.1, min(0.45 * (b/2), l_dovetail)). -/
def clampedDovetail (b l : ℚ) : ℚ :=
  if l ≤ 0 ∨ b / 2 ≤ l then max (1/10) (min (b / 2 * (9/20)) l) else l

/-- The closed 13-point outline P1..P13 of make_bone, as a function of the
three width tiers and the tip/shoulder Y coordinates. -/
def profilePts (xo xm xi yO yI : ℚ) : List (ℚ × ℚ) :=
  [ ( xo,  yO),  -- P1
    (-xo,  yO),  -- P2
    (-xi,  yI),  -- P3
    (-xm,  yI),  -- P4
    (-xm, -yI),  -- P5
    (-xi, -yI),  -- P6
    (-xo, -yO),  -- P7
    ( xo, -yO),  -- P8
    ( xi, -yI),  -- P9
    ( xm, -yI),  -- P10
    ( xm,  yI),  -- P11
    ( xi,  yI),  -- P12
    ( xo,  yO)]  -- P13

/-- The 13 profile points built by make_bone for a parameter record:
y_outer = b/2, y_inner = b/2 - clamped dovetail length. -/
def bonePts (p : BoneParams) : List (ℚ × ℚ) :=
  profilePts p.x_out p.x_mid p.x_in (p.b / 2)
    (p.b / 2 - clampedDovetail p.b p.l_dovetail)

/-- X coordinates of a point list. -/
def ptsXs (l : List (ℚ × ℚ)) : List ℚ := l.map Prod.fst

/-- Y coordinates of a point list. -/
def ptsYs (l : List (ℚ × ℚ)) : List ℚ := l.map Prod.snd

/-- Minimum of a list of rationals (0 for the empty list). -/
def lMin : List ℚ → ℚ
  | [] => 0
  | x :: xs => xs.foldl min x

/-- Maximum of a list of rationals (0 for the empty list). -/
def lMax : List ℚ → ℚ
  | [] => 0
  | x :: xs => xs.foldl max x

/-! ## Shapes, bounding boxes and the assembly (src/models/assembly.py) -/

/-- Constructed solids of the repository, as the terms the callers build:
a frame, a bone, and the transforms make_assembly applies to them. -/
inductive Shape where
  | frame (a c d : ℚ) (n : ℕ)
  | bone (p : BoneParams)
  | translateBy (s : Shape) (v : ℚ × ℚ × ℚ)
  | mirrorXY (s : Shape)
  | rotX90 (s : Shape)
deriving DecidableEq

/-- Axis-aligned bounding box of a shape. The frame's bounding box is its
outer plate (all other frame features cut inward or sit inside it, and the
cosmetic corner chamfers keep the plate's extremal faces); the bone's is the
extruded profile, spanning Z in [0, thickness]. A +90 degree rotation about
X sends (x, y, z) to (x, -z, y); mirroring across XY sends z to -z. -/
def bbox : Shape → Box3
  | .frame a c d n =>
      ⟨-(outerX a) / 2, outerX a / 2, -(outerY c d n) / 2, outerY c d n / 2,
        -PLATE_T / 2, PLATE_T / 2⟩
  | .bone p =>
      ⟨lMin (ptsXs (bonePts p)), lMax (ptsXs (bonePts p)),
        lMin (ptsYs (bonePts p)), lMax (ptsYs (bonePts p)), 0, p.thickness⟩
  | .translateBy s v =>
      let bx := bbox s
      ⟨bx.xmin + v.1, bx.xmax + v.1, bx.ymin + v.2.1, bx.ymax + v.2.1,
        bx.zmin + v.2.2, bx.zmax + v.2.2⟩
  | .mirrorXY s =>
      let bx := bbox s
      ⟨bx.xmin, bx.xmax, bx.ymin, bx.ymax, -bx.zmax, -bx.zmin⟩
  | .rotX90 s =>
      let bx := bbox s
      ⟨bx.xmin, bx.xmax, -bx.zmax, -bx.zmin, bx.ymin, bx.ymax⟩

/-- One assembly placement: a solid reference, a translation vector and a
rotation triple in degrees (applied Z then Y then X by the adapter). -/
structure Placement where
  shape : Shape
  transl : ℚ × ℚ × ℚ
  rot : ℚ × ℚ × ℚ
deriving DecidableEq

/-- Inset of the bones toward the center along X (assembly.py). -/
def BONE_X_INSET : ℚ := 11

/-- Bottom frame of make_assembly: raw frame translated by +PLATE_T/2 in Z. -/
def frame1Shape (a c d : ℚ) (n : ℕ) : Shape :=
  .translateBy (.frame a c d n) (0, 0, PLATE_T / 2)

/-- Top frame of make_assembly: raw frame mirrored across XY, then
translated by b - PLATE_T/2 in Z. -/
def frame2Shape (a c d : ℚ) (n : ℕ) (b : ℚ) : Shape :=
  .translateBy (.mirrorXY (.frame a c d n)) (0, 0, b - PLATE_T / 2)

/-- The one rotated bone solid of make_assembly: make_bone(b=b) rotated
+90 degrees about the X axis. -/
def boneRawShape (b : ℚ) : Shape :=
  .rotX90 (.bone { BONE_DEFAULTS with b := b })

/-- make_assembly of assembly.py: two frames and four corner bones, the
bones placed at the bounding-box corners of the bottom frame, inset along X
and nudged along +Y at the two negative-Y corners. -/
def make_assembly (a c d : ℚ) (n : ℕ) (b : ℚ) : List Placement :=
  let frame1 := frame1Shape a c d n
  let frame2 := frame2Shape a c d n b
  let fbb := bbox frame1
  let outer_x := fbb.xmax - fbb.xmin
  let outer_y := fbb.ymax - fbb.ymin
  let bone_raw := boneRawShape b
  let zc := b / 2
  let corners : List (ℚ × ℚ) :=
    [(outer_x / 2, outer_y / 2), (-outer_x / 2, outer_y / 2),
     (-outer_x / 2, -outer_y / 2), (outer_x / 2, -outer_y / 2)]
  let bone_thickness := BONE_DEFAULTS.thickness
  [⟨frame1, (0, 0, 0), (0, 0, 0)⟩, ⟨frame2, (0, 0, 0), (0, 0, 0)⟩] ++
    corners.map (fun q =>
      ⟨bone_raw,
        ((if 0 < q.1 then q.1 - BONE_X_INSET else q.1 + BONE_X_INSET),
         (if q.2 < 0 then q.2 + bone_thickness else q.2), zc),
        (0, 0, 0)⟩)

/-- Bounding box of a placed solid. Every placement make_assembly emits has
rotation (0,0,0), so realizing a placement only translates its solid. -/
def placedBox (pl : Placement) : Box3 :=
  let bx := bbox pl.shape
  ⟨bx.xmin + pl.transl.1, bx.xmax + pl.transl.1,
    bx.ymin + pl.transl.2.1, bx.ymax + pl.transl.2.1,
    bx.zmin + pl.transl.2.2, bx.zmax + pl.transl.2.2⟩

/-- Smallest box containing two boxes. -/
def unionBox (p q : Box3) : Box3 :=
  ⟨min p.xmin q.xmin, max p.xmax q.xmax, min p.ymin q.ymin,
    max p.ymax q.ymax, min p.zmin q.zmin, max p.zmax q.zmax⟩

/-- Bounding box of a whole placement list, as the export adapter merges it. -/
def composedBox : List Placement → Option Box3
  | [] => none
  | p :: ps => some (ps.foldl (fun bx q => unionBox bx (placedBox q)) (placedBox p))

/-! ## Exporter (src/exporter/exporter.py and src/app.py) -/

/-- Filesystem effects export_shape performs, in order. -/
inductive FsEffect where
  | mkdirParents (path : String)
  | writeExport (path : String) (kind : String)
deriving DecidableEq

/-- Python str.lower on the format string (ASCII case folding). -/
def lowerStr (s : String) : String := String.mk (s.data.map Char.toLower)

/-- Format strings export_shape accepts after lowercasing. -/
def supportedFormats : List String := ["stl", "step", "stp"]

/-- Format choices the CLI entry point app.py exposes for --fmt. -/
def cliFormatChoices : List String := ["stl", "step"]

/-- export_shape of exporter.py: lowercase the format, create the missing
parent directories of out_path, then either write the export and return the
resolved path, or raise ValueError on an unsupported format. The path
resolution of the host filesystem is passed in as the function resolve. -/
def export_shape (resolve : String → String) (out_path fmt0 : String) :
    List FsEffect × Except String String :=
  let fmt := lowerStr fmt0
  if fmt = "stl" then
    ([.mkdirParents out_path, .writeExport out_path "STL"], .ok (resolve out_path))
  else if fmt = "step" ∨ fmt = "stp" then
    ([.mkdirParents out_path, .writeExport out_path "STEP"], .ok (resolve out_path))
  else
    ([.mkdirParents out_path], .error ("Unsupported format: " ++ fmt))

/-! ## Frame point membership (make_frame CSG, src/models/frame_model.py) -/

/-- Membership of v in the closed interval centered at ctr with half-width h. -/
def inIv (ctr h v : ℚ) : Prop := |v - ctr| ≤ h

/-- Point inside the outer plate box of make_frame. -/
def platePart (a c d : ℚ) (n : ℕ) (x y z : ℚ) : Prop :=
  inIv 0 (outerX a / 2) x ∧ inIv 0 (outerY c d n / 2) y ∧ inIv 0 (PLATE_T / 2) z

/-- Point inside the inner window cut (cut through the full plate thickness). -/
def windowPart (a c d : ℚ) (n : ℕ) (x y z : ℚ) : Prop :=
  inIv 0 (innerX a / 2) x ∧ inIv 0 (innerY c d n / 2) y ∧ inIv 0 (PLATE_T / 2) z

/-- Point inside the left or right rail box of make_frame. -/
def railPart (a c d : ℚ) (n : ℕ) (x y z : ℚ) : Prop :=
  (inIv (leftRailX a) (NOSE_DEPTH / 2) x ∨ inIv (rightRailX a) (NOSE_DEPTH / 2) x) ∧
    inIv 0 (innerY c d n / 2) y ∧ inIv 0 (PLATE_T / 2) z

/-- Point inside one of the 2n slot cut boxes of make_frame. -/
def slotPart (a c d : ℚ) (n : ℕ) (x y z : ℚ) : Prop :=
  (inIv (leftRailX a) (NOSE_DEPTH / 2) x ∨ inIv (rightRailX a) (NOSE_DEPTH / 2) x) ∧
    (∃ i ∈ List.range n, inIv (slotCenterQ c d n i) (c / 2) y) ∧
    inIv 0 ((PLATE_T + 1/5) / 2) z

/-- The four connector rectangle centers of make_frame. -/
def connCenters (a c d : ℚ) (n : ℕ) : List (ℚ × ℚ) :=
  [(-(outerX a) / 2 + CONNECTOR_XOFF + CONNECTOR_W / 2, outerY c d n / 2 - CONNECTOR_H / 2),
   ((outerX a) / 2 - CONNECTOR_XOFF - CONNECTOR_W / 2, outerY c d n / 2 - CONNECTOR_H / 2),
   (-(outerX a) / 2 + CONNECTOR_XOFF + CONNECTOR_W / 2, -(outerY c d n) / 2 + CONNECTOR_H / 2),
   ((outerX a) / 2 - CONNECTOR_XOFF - CONNECTOR_W / 2, -(outerY c d n) / 2 + CONNECTOR_H / 2)]

/-- Point inside one of the four batched connector through-cuts
(extruded PLATE_T + 1 both ways in Z). -/
def connPart (a c d : ℚ) (n : ℕ) (x y z : ℚ) : Prop :=
  ∃ q ∈ connCenters a c d n,
    inIv q.1 (CONNECTOR_W / 2) x ∧ inIv q.2 (CONNECTOR_H / 2) y ∧ inIv 0 (PLATE_T + 1) z

/-- Point inside the triangular wedge cross-section with right-angle corner
at x-edge xe and the bottom of the plate, horizontal leg CHAMFER_X directed
by sgn, vertical leg CHAMFER_Z. -/
def triMem (xe sgn x z : ℚ) : Prop :=
  0 ≤ z + PLATE_T / 2 ∧ 0 ≤ sgn * (x - xe) ∧
    CHAMFER_Z * (sgn * (x - xe)) + CHAMFER_X * (z + PLATE_T / 2) ≤ CHAMFER_X * CHAMFER_Z

/-- Point inside one of the eight cable-entry wedges. The wedge pair of the
connector centered at (x0, y0) is sketched on an XZ workplane offset by the
cutout's bottom Y and extruded CONNECTOR_H along the plane normal (-Y), so
it occupies the Y interval centered at -y0 of half-width CONNECTOR_H/2. -/
def wedgePart (a c d : ℚ) (n : ℕ) (x y z : ℚ) : Prop :=
  ∃ q ∈ connCenters a c d n,
    inIv (-q.2) (CONNECTOR_H / 2) y ∧
      (triMem (q.1 - CONNECTOR_W / 2) (-1) x z ∨ triMem (q.1 + CONNECTOR_W / 2) 1 x z)

/-- Point membership in the frame solid of make_frame before the cosmetic
edge chamfers: plate minus window, union rails minus slots, minus connector
cuts, minus cable wedges. -/
def FrameMemProp (a c d : ℚ) (n : ℕ) (x y z : ℚ) : Prop :=
  ((platePart a c d n x y z ∧ ¬windowPart a c d n x y z) ∨
      (railPart a c d n x y z ∧ ¬slotPart a c d n x y z)) ∧
    ¬connPart a c d n x y z ∧ ¬wedgePart a c d n x y z

/-- Target points of the connector-top cosmetic chamfer edge selection: for
each connector center, the two points (x0 -+ CONNECTOR_W/2, y0, PLATE_T/2). -/
def connTopChamferPts (a c d : ℚ) (n : ℕ) : List (ℚ × ℚ × ℚ) :=
  (connCenters a c d n).foldr
    (fun q acc =>
      (q.1 - CONNECTOR_W / 2, q.2, PLATE_T / 2) ::
      (q.1 + CONNECTOR_W / 2, q.2, PLATE_T / 2) :: acc)
    []

/-! ## Helper lemmas -/

/-- Fold of max keeps an upper bound of the list fixed. -/
theorem foldl_max_fixed {l : List ℚ} {a : ℚ} (h : ∀ x ∈ l, x ≤ a) :
    l.foldl max a = a := by
  induction l generalizing a with
  | nil => rfl
  | cons x xs ih =>
      simp only [List.foldl_cons]
      rw [max_eq_left (h x (by simp))]
      exact ih fun y hy => h y (by simp [hy])

/-- Fold of min keeps a lower bound of the list fixed. -/
theorem foldl_min_fixed {l : List ℚ} {a : ℚ} (h : ∀ x ∈ l, a ≤ x) :
    l.foldl min a = a := by
  induction l generalizing a with
  | nil => rfl
  | cons x xs ih =>
      simp only [List.foldl_cons]
      rw [min_eq_left (h x (by simp))]
      exact ih fun y hy => h y (by simp [hy])

/-- Fold of min is at most its starting value. -/
theorem foldl_min_le_init (l : List ℚ) (a : ℚ) : l.foldl min a ≤ a := by
  induction l generalizing a with
  | nil => exact le_refl _
  | cons x xs ih =>
      simp only [List.foldl_cons]
      exact le_trans (ih _) (min_le_left _ _)

/-- Fold of min is at most any list element. -/
theorem foldl_min_le_mem {l : List ℚ} {a x : ℚ} (hx : x ∈ l) :
    l.foldl min a ≤ x := by
  induction l generalizing a with
  | nil => cases hx
  | cons y ys ih =>
      simp only [List.foldl_cons]
      rcases List.mem_cons.mp hx with rfl | hmem
      · exact le_trans (foldl_min_le_init _ _) (min_le_right _ _)
      · exact ih hmem

/-- A lower bound of the start and of every element bounds the min fold. -/
theorem le_foldl_min {l : List ℚ} {a c : ℚ} (ha : c ≤ a) (h : ∀ x ∈ l, c ≤ x) :
    c ≤ l.foldl min a := by
  induction l generalizing a with
  | nil => exact ha
  | cons x xs ih =>
      simp only [List.foldl_cons]
      exact ih (le_min ha (h x (by simp))) fun y hy => h y (by simp [hy])

/-- Fold of max is at least its starting value. -/
theorem init_le_foldl_max (l : List ℚ) (a : ℚ) : a ≤ l.foldl max a := by
  induction l generalizing a with
  | nil => exact le_refl _
  | cons x xs ih =>
      simp only [List.foldl_cons]
      exact le_trans (le_max_left _ _) (ih _)

/-- Fold of max is at least any list element. -/
theorem mem_le_foldl_max {l : List ℚ} {a x : ℚ} (hx : x ∈ l) :
    x ≤ l.foldl max a := by
  induction l generalizing a with
  | nil => cases hx
  | cons y ys ih =>
      simp only [List.foldl_cons]
      rcases List.mem_cons.mp hx with rfl | hmem
      · exact le_trans (le_max_right _ _) (init_le_foldl_max _ _)
      · exact ih hmem

/-- An upper bound of the start and of every element bounds the max fold. -/
theorem foldl_max_le {l : List ℚ} {a c : ℚ} (ha : a ≤ c) (h : ∀ x ∈ l, x ≤ c) :
    l.foldl max a ≤ c := by
  induction l generalizing a with
  | nil => exact ha
  | cons x xs ih =>
      simp only [List.foldl_cons]
      exact ih (max_le ha (h x (by simp))) fun y hy => h y (by simp [hy])

/-- Interval membership of a negated value flips the interval center. -/
theorem inIv_negv {ctr h v : ℚ} : inIv ctr h (-v) ↔ inIv (-ctr) h v := by
  unfold inIv
  rw [show -v - ctr = -(v - -ctr) by ring, abs_neg]

/-! ## Claim theorems -/

/-- Claim C1 (amended): in make_bone, for every b > 0.2 and every l_dovetail
with l_dovetail <= 0 or l_dovetail >= b/2, the builder replaces l_dovetail by
max(0.1, min(0.45*(b/2), l_dovetail)), and the clamped value lies strictly
between 0 and b/2, so y_inner = b/2 - l_dovetail stays strictly positive;
for b=5, l_dovetail=8 the clamped value is exactly 1.125, and for b=80,
l_dovetail=8 no clamping occurs (y_outer=40, y_inner=32). -/
theorem bone_dovetail_clamp_bounds (b l : ℚ) (hb : 1/5 < b)
    (hl : l ≤ 0 ∨ b / 2 ≤ l) :
    clampedDovetail b l = max (1/10) (min (b / 2 * (9/20)) l) ∧
    0 < clampedDovetail b l ∧ clampedDovetail b l < b / 2 ∧
    0 < b / 2 - clampedDovetail b l ∧
    clampedDovetail 5 8 = 9/8 ∧
    clampedDovetail 80 8 = 8 ∧
    (80 : ℚ) / 2 = 40 ∧ (80 : ℚ) / 2 - clampedDovetail 80 8 = 32 := by
  have heq : clampedDovetail b l = max (1/10) (min (b / 2 * (9/20)) l) := by
    unfold clampedDovetail
    rw [if_pos hl]
  have hpos : 0 < clampedDovetail b l := by
    rw [heq]
    exact lt_of_lt_of_le (by norm_num) (le_max_left _ _)
  have hlt : clampedDovetail b l < b / 2 := by
    rw [heq]
    exact max_lt (by linarith) (lt_of_le_of_lt (min_le_left _ _) (by linarith))
  have h58 : clampedDovetail 5 8 = 9/8 := by
    norm_num [clampedDovetail, max_def, min_def]
  have h808 : clampedDovetail 80 8 = 8 := by
    norm_num [clampedDovetail]
  exact ⟨heq, hpos, hlt, by linarith, h58, h808, by norm_num, by rw [h808]; norm_num⟩

/-- Claim C1 witness: the clamp bound theorem applied at b=5, l_dovetail=8. -/
theorem bone_dovetail_clamp_bounds_witness :
    (1/5 : ℚ) < 5 ∧ ((8 : ℚ) ≤ 0 ∨ (5 : ℚ) / 2 ≤ 8) ∧
    0 < clampedDovetail 5 8 ∧ clampedDovetail 5 8 < 5 / 2 :=
  ⟨by norm_num, by norm_num,
    (bone_dovetail_clamp_bounds 5 8 (by norm_num) (by norm_num)).2.1,
    (bone_dovetail_clamp_bounds 5 8 (by norm_num) (by norm_num)).2.2.1⟩

/-- Claim C1 counterexample: at b = 1/5 > 0 and l_dovetail = 8 the clamp
triggers and produces exactly the stated formula, but the clamped value
1/10 equals b/2 instead of lying strictly below it, so the shoulder point
reaches the tip (y_inner = 0 is not strictly positive). -/
theorem bone_dovetail_clamp_cex :
    (0 : ℚ) < 1/5 ∧ ((8 : ℚ) ≤ 0 ∨ (1/5 : ℚ) / 2 ≤ 8) ∧
    clampedDovetail (1/5) 8 = max (1/10) (min ((1/5 : ℚ) / 2 * (9/20)) 8) ∧
    ¬(clampedDovetail (1/5) 8 < (1/5 : ℚ) / 2) ∧
    ¬(0 < (1/5 : ℚ) / 2 - clampedDovetail (1/5) 8) := by
  have h : clampedDovetail (1/5) 8 = 1/10 := by
    norm_num [clampedDovetail, max_def, min_def]
  refine ⟨by norm_num, by norm_num, ?_, by rw [h]; norm_num, by rw [h]; norm_num⟩
  rw [h]
  norm_num [max_def, min_def]

/-- Claim C4: the derived frame dimensions satisfy inner_x = a + LEN_EXTRA,
inner_y = n*c + (n+1)*d, outer_x = inner_x + 2*FRAME_WALL_X and
outer_y = inner_y + 2*(FRAME_WALL_Y + TOP_BOTTOM_MARGIN); for a=90, c=1.6,
d=10, n=10 this gives inner_y = 126, inner_x = 95, outer_x = 109 (with
FRAME_WALL_X = 10 - 3 = 7) and outer_y = 150. -/
theorem frame_derived_dims (a c d : ℚ) (n : ℕ) :
    innerX a = a + LEN_EXTRA ∧
    innerY c d n = n * c + (n + 1) * d ∧
    outerX a = innerX a + 2 * FRAME_WALL_X ∧
    outerY c d n = innerY c d n + 2 * (FRAME_WALL_Y + TOP_BOTTOM_MARGIN) ∧
    FRAME_WALL_X = 7 ∧
    innerY (8/5) 10 10 = 126 ∧ innerX 90 = 95 ∧
    outerX 90 = 109 ∧ outerY (8/5) 10 10 = 150 := by
  refine ⟨rfl, ?_, rfl, rfl, by norm_num [FRAME_WALL_X, NOSE_DEPTH],
    by norm_num [innerY, active_height], by norm_num [innerX, LEN_EXTRA],
    by norm_num [outerX, innerX, LEN_EXTRA, FRAME_WALL_X, NOSE_DEPTH],
    by norm_num [outerY, innerY, active_height, FRAME_WALL_Y, TOP_BOTTOM_MARGIN]⟩
  unfold innerY active_height
  ring

/-- Claim C7: the 13-point bone profile of make_bone is symmetric under
x goes to -x: reflecting any profile point across the Y axis yields again a
profile point, for every parameter record. -/
theorem bone_profile_x_symm (p : BoneParams) (q : ℚ × ℚ)
    (hq : q ∈ bonePts p) : (-q.1, q.2) ∈ bonePts p := by
  simp only [bonePts, profilePts, List.mem_cons, List.not_mem_nil, or_false] at hq
  rcases hq with rfl | rfl | rfl | rfl | rfl | rfl | rfl | rfl | rfl | rfl | rfl | rfl | rfl <;>
    simp [bonePts, profilePts, List.mem_cons]

/-- Claim C7 witness: reflecting the tip point P1 = (7, 40) of the default
bone profile lands on the profile point P2 = (-7, 40). -/
theorem bone_profile_x_symm_witness :
    ((7 : ℚ), (40 : ℚ)) ∈ bonePts BONE_DEFAULTS ∧
    ((-7 : ℚ), (40 : ℚ)) ∈ bonePts BONE_DEFAULTS := by
  have hm : ((7 : ℚ), (40 : ℚ)) ∈ bonePts BONE_DEFAULTS := by
    norm_num [bonePts, profilePts, BONE_DEFAULTS, clampedDovetail, List.mem_cons,
      Prod.mk.injEq]
  exact ⟨hm, by simpa using bone_profile_x_symm BONE_DEFAULTS (7, 40) hm⟩

/-- Claim C5: make_assembly returns exactly 6 placements in the fixed order
frame-bottom, frame-top, then four bones; every placement carries rotation
(0,0,0), and the four bone placements all reference the same rotated bone
solid, differing only in their translation vectors. -/
theorem assembly_six_placements (a c d : ℚ) (n : ℕ) (b : ℚ) :
    ∃ t3 t4 t5 t6 : ℚ × ℚ × ℚ,
      make_assembly a c d n b =
        [⟨frame1Shape a c d n, (0, 0, 0), (0, 0, 0)⟩,
         ⟨frame2Shape a c d n b, (0, 0, 0), (0, 0, 0)⟩,
         ⟨boneRawShape b, t3, (0, 0, 0)⟩,
         ⟨boneRawShape b, t4, (0, 0, 0)⟩,
         ⟨boneRawShape b, t5, (0, 0, 0)⟩,
         ⟨boneRawShape b, t6, (0, 0, 0)⟩] ∧
      (make_assembly a c d n b).length = 6 :=
  ⟨_, _, _, _, rfl, rfl⟩

/-- Claim C9: export_shape fails with an invalid-format error exactly when
the lowercased format string is unsupported, returns the resolved output
path on a supported format, and writes no export output on the error path. -/
theorem export_format_validation (resolve : String → String) (out fmt : String) :
    ((∃ e, (export_shape resolve out fmt).2 = .error e) ↔
        lowerStr fmt ∉ supportedFormats) ∧
    (lowerStr fmt ∈ supportedFormats →
        (export_shape resolve out fmt).2 = .ok (resolve out)) ∧
    ((∃ e, (export_shape resolve out fmt).2 = .error e) →
        ∀ p k, FsEffect.writeExport p k ∉ (export_shape resolve out fmt).1) := by
  unfold export_shape supportedFormats
  by_cases h1 : lowerStr fmt = "stl"
  · simp [h1]
  · by_cases h2 : lowerStr fmt = "step"
    · simp [h1, h2]
    · by_cases h3 : lowerStr fmt = "stp"
      · simp [h1, h2, h3]
      · simp [h1, h2, h3]

/-- Claim C9 witness: exporting with format STL (uppercase) succeeds and
returns the resolved path. -/
theorem export_format_validation_witness :
    lowerStr "STL" ∈ supportedFormats ∧
    (export_shape (fun s => s) "model.stl" "STL").2 = .ok "model.stl" :=
  ⟨by decide,
    (export_format_validation (fun s => s) "model.stl" "STL").2.1 (by decide)⟩

/-- Claim C10: export_shape creates the parent directories before validating
the format (so the unsupported-format path still mutates the filesystem),
format matching is case-insensitive, and the undocumented alias stp is
accepted as STEP even though the CLI only exposes stl and step. -/
theorem export_mkdir_before_validation (resolve : String → String) (out fmt : String) :
    (export_shape resolve out fmt).1.head? = some (.mkdirParents out) ∧
    (∀ fmt2, lowerStr fmt = lowerStr fmt2 →
        export_shape resolve out fmt = export_shape resolve out fmt2) ∧
    (lowerStr fmt ∉ supportedFormats →
        export_shape resolve out fmt =
          ([.mkdirParents out], .error ("Unsupported format: " ++ lowerStr fmt))) ∧
    (export_shape resolve out "stp").2 = .ok (resolve out) ∧
    FsEffect.writeExport out "STEP" ∈ (export_shape resolve out "stp").1 ∧
    "stp" ∉ cliFormatChoices := by
  refine ⟨?_, ?_, ?_, rfl, ?_, by decide⟩
  · simp only [export_shape]
    split_ifs <;> rfl
  · intro fmt2 h
    unfold export_shape
    rw [h]
  · intro h
    have h1 : ¬(lowerStr fmt = "stl") := fun e => h (by simp [supportedFormats, e])
    have h2 : ¬(lowerStr fmt = "step" ∨ lowerStr fmt = "stp") := by
      rintro (e | e) <;> exact h (by simp [supportedFormats, e])
    unfold export_shape
    rw [if_neg h1, if_neg h2]
  · have e : (export_shape resolve out "stp").1 =
        [.mkdirParents out, .writeExport out "STEP"] := rfl
    rw [e]
    simp

/-- Claim C10 witness: an unsupported format JPG still creates the parent
directories and only then fails. -/
theorem export_mkdir_before_validation_witness :
    lowerStr "JPG" ∉ supportedFormats ∧
    export_shape (fun s => s) "outdir/m.stl" "JPG" =
      ([FsEffect.mkdirParents "outdir/m.stl"],
        Except.error ("Unsupported format: " ++ lowerStr "JPG")) :=
  ⟨by decide,
    (export_mkdir_before_validation (fun s => s) "outdir/m.stl" "JPG").2.2.1 (by decide)⟩

/-- Each slot cut list entry is a left or right cut box at some center. -/
theorem slotCutBoxes_mem (a c d : ℚ) (n : ℕ) (bx : Box3)
    (hbx : bx ∈ slotCutBoxes a c d n) :
    ∃ yc, bx = boxAt (leftRailX a) yc 0 NOSE_DEPTH c (PLATE_T + 1/5) ∨
      bx = boxAt (rightRailX a) yc 0 NOSE_DEPTH c (PLATE_T + 1/5) := by
  have key : ∀ l : List ℚ,
      bx ∈ l.foldr
        (fun yc acc =>
          boxAt (leftRailX a) yc 0 NOSE_DEPTH c (PLATE_T + 1/5) ::
          boxAt (rightRailX a) yc 0 NOSE_DEPTH c (PLATE_T + 1/5) :: acc) [] →
      ∃ yc, bx = boxAt (leftRailX a) yc 0 NOSE_DEPTH c (PLATE_T + 1/5) ∨
        bx = boxAt (rightRailX a) yc 0 NOSE_DEPTH c (PLATE_T + 1/5) := by
    intro l
    induction l with
    | nil => intro h; cases h
    | cons x xs ih =>
        intro h
        rcases List.mem_cons.mp h with rfl | h2
        · exact ⟨x, Or.inl rfl⟩
        · rcases List.mem_cons.mp h2 with rfl | h3
          · exact ⟨x, Or.inr rfl⟩
          · exact ih h3
  exact key (slotCenters c d n) hbx

/-- The slot cut list has one left and one right cut per slot center. -/
theorem slotCutBoxes_length (a c d : ℚ) (n : ℕ) :
    (slotCutBoxes a c d n).length = 2 * n := by
  have key : ∀ l : List ℚ,
      (l.foldr
        (fun yc acc =>
          boxAt (leftRailX a) yc 0 NOSE_DEPTH c (PLATE_T + 1/5) ::
          boxAt (rightRailX a) yc 0 NOSE_DEPTH c (PLATE_T + 1/5) :: acc) []).length =
      2 * l.length := by
    intro l
    induction l with
    | nil => rfl
    | cons x xs ih =>
        simp only [List.foldr_cons, List.length_cons, ih]
        ring
  have h := key (slotCenters c d n)
  simpa [slotCutBoxes, slotCenters] using h

/-- Claim C3: make_frame cuts exactly n slot pairs, one pair at each
y_center_i = (-inner_y/2 + d) + (i+0.5)*c + i*d, each cut of size
NOSE_DEPTH x c x (PLATE_T + 0.2); with inner_y = n*c + (n+1)*d the first
slot starts at -inner_y/2 + d, the last slot ends at inner_y/2 - d, and
consecutive slots are separated by noses of width d, giving n slots bounded
and separated by n+1 noses. -/
theorem frame_slot_layout (a c d : ℚ) (n : ℕ) (hn : 1 ≤ n) (hc : 0 < c)
    (hd : 0 < d) :
    (slotCenters c d n).length = n ∧
    (∀ i, i < n → (slotCenters c d n)[i]? =
        some (-(innerY c d n) / 2 + d + ((i : ℚ) + 1/2) * c + (i : ℚ) * d)) ∧
    (slotCutBoxes a c d n).length = 2 * n ∧
    (∀ bx ∈ slotCutBoxes a c d n,
        bx.xmax - bx.xmin = NOSE_DEPTH ∧ bx.ymax - bx.ymin = c ∧
          bx.zmax - bx.zmin = PLATE_T + 1/5) ∧
    slotCenterQ c d n 0 - c / 2 = -(innerY c d n) / 2 + d ∧
    slotCenterQ c d n (n - 1) + c / 2 = innerY c d n / 2 - d ∧
    (∀ i, i + 1 < n →
        (slotCenterQ c d n (i + 1) - c / 2) - (slotCenterQ c d n i + c / 2) = d) := by
  refine ⟨by simp [slotCenters], ?_, slotCutBoxes_length a c d n, ?_, ?_, ?_, ?_⟩
  · intro i hi
    simp [slotCenters, slotCenterQ, y0Slots, hi]
  · intro bx hbx
    obtain ⟨yc, h | h⟩ := slotCutBoxes_mem a c d n bx hbx <;>
      · subst h
        refine ⟨?_, ?_, ?_⟩ <;> simp [boxAt] <;> ring
  · unfold slotCenterQ y0Slots innerY active_height
    push_cast
    ring
  · have hcast : ((n - 1 : ℕ) : ℚ) = (n : ℚ) - 1 := by
      rw [Nat.cast_sub hn]
      norm_num
    unfold slotCenterQ y0Slots innerY active_height
    rw [hcast]
    ring
  · intro i _
    unfold slotCenterQ y0Slots
    push_cast
    ring

/-- Claim C3 witness: the slot layout theorem applied at a=90, c=1.6, d=10,
n=10, evaluated at the first slot. -/
theorem frame_slot_layout_witness :
    1 ≤ 10 ∧ (0 : ℚ) < 8/5 ∧ (0 : ℚ) < 10 ∧
    (slotCenters (8/5) 10 10).length = 10 ∧
    (slotCenters (8/5) 10 10)[0]? =
      some (-(innerY (8/5) 10 10) / 2 + 10 + ((0 : ℚ) + 1/2) * (8/5) + (0 : ℚ) * 10) ∧
    slotCenterQ (8/5) 10 10 0 - (8/5) / 2 = -(innerY (8/5) 10 10) / 2 + 10 := by
  have h := frame_slot_layout 90 (8/5) 10 10 (by norm_num) (by norm_num) (by norm_num)
  exact ⟨by norm_num, by norm_num, by norm_num, h.1, h.2.1 0 (by norm_num),
    h.2.2.2.2.1⟩

/-- Claim C6: the four bone placements of make_assembly sit at the four
bounding-box corners (x, y) = (+-outer_x/2, +-outer_y/2) of the bottom
frame, with X inset toward the center by BONE_X_INSET (subtracted when
x > 0, added when x < 0) and with the default bone thickness added to Y at
the two negative-Y corners, Y unchanged at the nonnegative-Y corners. -/
theorem assembly_bone_corner_insets (a c d : ℚ) (n : ℕ) (b : ℚ)
    (ha : 0 < a) (hc : 0 < c) (hd : 0 < d) :
    (make_assembly a c d n b).drop 2 =
      [⟨boneRawShape b, (outerX a / 2 - BONE_X_INSET, outerY c d n / 2, b / 2),
          (0, 0, 0)⟩,
       ⟨boneRawShape b, (-(outerX a / 2) + BONE_X_INSET, outerY c d n / 2, b / 2),
          (0, 0, 0)⟩,
       ⟨boneRawShape b,
          (-(outerX a / 2) + BONE_X_INSET,
            -(outerY c d n / 2) + BONE_DEFAULTS.thickness, b / 2), (0, 0, 0)⟩,
       ⟨boneRawShape b,
          (outerX a / 2 - BONE_X_INSET,
            -(outerY c d n / 2) + BONE_DEFAULTS.thickness, b / 2), (0, 0, 0)⟩] := by
  have hox : 0 < outerX a := by
    unfold outerX innerX FRAME_WALL_X NOSE_DEPTH LEN_EXTRA
    linarith
  have hoy : 0 < outerY c d n := by
    have h1 : 0 ≤ (n : ℚ) * c := mul_nonneg (Nat.cast_nonneg n) hc.le
    have h2 : 0 < ((n : ℚ) + 1) * d := by positivity
    unfold outerY innerY active_height FRAME_WALL_Y TOP_BOTTOM_MARGIN
    linarith
  simp only [make_assembly, frame1Shape, bbox]
  simp only [List.cons_append, List.nil_append, List.drop_succ_cons,
    List.drop_zero, List.map_cons, List.map_nil]
  split_ifs <;> try (exfalso; linarith)
  simp only [List.cons.injEq, Placement.mk.injEq, Prod.mk.injEq, and_true, true_and]
  norm_num
  and_intros <;> ring

/-- Claim C6 witness: the corner inset theorem applied at a=90, c=1.6, d=10,
n=10, b=120, with the translations fully evaluated. -/
theorem assembly_bone_corner_insets_witness :
    (0 : ℚ) < 90 ∧ (0 : ℚ) < 8/5 ∧ (0 : ℚ) < 10 ∧
    (make_assembly 90 (8/5) 10 10 120).drop 2 =
      [⟨boneRawShape 120, (87/2, 75, 60), (0, 0, 0)⟩,
       ⟨boneRawShape 120, (-(87/2), 75, 60), (0, 0, 0)⟩,
       ⟨boneRawShape 120, (-(87/2), -70, 60), (0, 0, 0)⟩,
       ⟨boneRawShape 120, (87/2, -70, 60), (0, 0, 0)⟩] := by
  refine ⟨by norm_num, by norm_num, by norm_num, ?_⟩
  rw [assembly_bone_corner_insets 90 (8/5) 10 10 120 (by norm_num) (by norm_num)
    (by norm_num)]
  norm_num [outerX, innerX, outerY, innerY, active_height, FRAME_WALL_X, NOSE_DEPTH,
    LEN_EXTRA, FRAME_WALL_Y, TOP_BOTTOM_MARGIN, BONE_X_INSET, BONE_DEFAULTS,
    List.cons.injEq, Placement.mk.injEq, Prod.mk.injEq]

/-- Bounds for the clamped default dovetail length when b exceeds the plate
thickness: the effective dovetail length lies strictly between 0 and b/2. -/
theorem clamped_default_bounds (b : ℚ) (hb : PLATE_T < b) :
    0 < clampedDovetail b 8 ∧ clampedDovetail b 8 < b / 2 := by
  have hb8 : (8 : ℚ) < b := by simpa [PLATE_T] using hb
  unfold clampedDovetail
  rcases le_or_lt b 16 with h16 | h16
  · rw [if_pos (Or.inr (by linarith))]
    rw [min_eq_left (by linarith), max_eq_right (by linarith)]
    constructor <;> linarith
  · rw [if_neg (by rintro (h | h) <;> linarith)]
    constructor <;> linarith

/-- The Y coordinates of the default bone profile of length b. -/
theorem bone_ptsYs_eq (b : ℚ) :
    ptsYs (bonePts ({ BONE_DEFAULTS with b := b })) =
      [b / 2, b / 2, b / 2 - clampedDovetail b 8, b / 2 - clampedDovetail b 8,
       -(b / 2 - clampedDovetail b 8), -(b / 2 - clampedDovetail b 8),
       -(b / 2), -(b / 2),
       -(b / 2 - clampedDovetail b 8), -(b / 2 - clampedDovetail b 8),
       b / 2 - clampedDovetail b 8, b / 2 - clampedDovetail b 8, b / 2] := by
  simp [ptsYs, bonePts, profilePts, BONE_DEFAULTS]

/-- Vertical extent of the rotated bone of make_assembly: it reaches from
-b/2 to b/2 once b exceeds the plate thickness. -/
theorem boneRaw_bbox_z (b : ℚ) (hb : PLATE_T < b) :
    (bbox (boneRawShape b)).zmin = -(b / 2) ∧ (bbox (boneRawShape b)).zmax = b / 2 := by
  have hb8 : (8 : ℚ) < b := by simpa [PLATE_T] using hb
  obtain ⟨hcl0, hcl2⟩ := clamped_default_bounds b hb
  have hys := bone_ptsYs_eq b
  constructor
  · show lMin (ptsYs (bonePts ({ BONE_DEFAULTS with b := b }))) = -(b / 2)
    rw [hys]
    show List.foldl min (b / 2) _ = -(b / 2)
    apply le_antisymm
    · exact foldl_min_le_mem (by simp)
    · refine le_foldl_min (by linarith) ?_
      intro x hx
      fin_cases hx <;> linarith
  · show lMax (ptsYs (bonePts ({ BONE_DEFAULTS with b := b }))) = b / 2
    rw [hys]
    show List.foldl max (b / 2) _ = b / 2
    apply le_antisymm
    · refine foldl_max_le (le_refl _) ?_
      intro x hx
      fin_cases hx <;> linarith
    · exact init_le_foldl_max _ _

/-- The make_assembly list, with the bone X/Y translations abstracted: two
frames and four bones whose placements all carry Z translation b/2. -/
theorem make_assembly_bones (a c d : ℚ) (n : ℕ) (b : ℚ) :
    ∃ x3 y3 x4 y4 x5 y5 x6 y6 : ℚ,
      make_assembly a c d n b =
        [⟨frame1Shape a c d n, (0, 0, 0), (0, 0, 0)⟩,
         ⟨frame2Shape a c d n b, (0, 0, 0), (0, 0, 0)⟩,
         ⟨boneRawShape b, (x3, y3, b / 2), (0, 0, 0)⟩,
         ⟨boneRawShape b, (x4, y4, b / 2), (0, 0, 0)⟩,
         ⟨boneRawShape b, (x5, y5, b / 2), (0, 0, 0)⟩,
         ⟨boneRawShape b, (x6, y6, b / 2), (0, 0, 0)⟩] :=
  ⟨_, _, _, _, _, _, _, _, rfl⟩

/-- Bottom frame vertical extent: underside at Z = 0, top at Z = PLATE_T. -/
theorem frame1_bbox_z (a c d : ℚ) (n : ℕ) :
    (bbox (frame1Shape a c d n)).zmin = 0 ∧
    (bbox (frame1Shape a c d n)).zmax = PLATE_T := by
  constructor <;> · simp [frame1Shape, bbox]; try ring

/-- Top frame vertical extent: underside at Z = b - PLATE_T, top at Z = b. -/
theorem frame2_bbox_z (a c d : ℚ) (n : ℕ) (b : ℚ) :
    (bbox (frame2Shape a c d n b)).zmin = b - PLATE_T ∧
    (bbox (frame2Shape a c d n b)).zmax = b := by
  constructor <;> · simp [frame2Shape, bbox]; try ring

/-- Claim C2: for b > PLATE_T the composed assembly spans exactly Z in
[0, b]: the bottom frame's underside lies at Z=0 and its top at PLATE_T, the
mirrored top frame spans [b - PLATE_T, b], each placed bone spans [0, b],
and the Z-span of the composed bounding box equals b exactly. -/
theorem assembly_z_span (a c d : ℚ) (n : ℕ) (b : ℚ) (hb : PLATE_T < b) :
    (∃ bx, composedBox (make_assembly a c d n b) = some bx ∧
        bx.zmin = 0 ∧ bx.zmax = b ∧ bx.zmax - bx.zmin = b) ∧
    (bbox (frame1Shape a c d n)).zmin = 0 ∧
    (bbox (frame1Shape a c d n)).zmax = PLATE_T ∧
    (bbox (frame2Shape a c d n b)).zmin = b - PLATE_T ∧
    (bbox (frame2Shape a c d n b)).zmax = b ∧
    (∀ pl ∈ (make_assembly a c d n b).drop 2,
        (placedBox pl).zmin = 0 ∧ (placedBox pl).zmax = b) := by
  have hb8 : (8 : ℚ) < b := by simpa [PLATE_T] using hb
  obtain ⟨h1min, h1max⟩ := frame1_bbox_z a c d n
  obtain ⟨h2min, h2max⟩ := frame2_bbox_z a c d n b
  obtain ⟨hbmin, hbmax⟩ := boneRaw_bbox_z b hb
  obtain ⟨x3, y3, x4, y4, x5, y5, x6, y6, heq⟩ := make_assembly_bones a c d n b
  rw [heq]
  have hple : (0 : ℚ) ≤ b - PLATE_T := by
    simp [PLATE_T]
    linarith
  refine ⟨?_, h1min, h1max, h2min, h2max, ?_⟩
  · refine ⟨_, rfl, ?_, ?_, ?_⟩
    · show min (min (min (min (min ((bbox (frame1Shape a c d n)).zmin + 0)
        ((bbox (frame2Shape a c d n b)).zmin + 0))
        ((bbox (boneRawShape b)).zmin + b / 2))
        ((bbox (boneRawShape b)).zmin + b / 2))
        ((bbox (boneRawShape b)).zmin + b / 2))
        ((bbox (boneRawShape b)).zmin + b / 2) = 0
      rw [h1min, h2min, hbmin]
      simp only [add_zero, zero_add, neg_add_cancel]
      rw [min_eq_left hple]
      simp
    · show max (max (max (max (max ((bbox (frame1Shape a c d n)).zmax + 0)
        ((bbox (frame2Shape a c d n b)).zmax + 0))
        ((bbox (boneRawShape b)).zmax + b / 2))
        ((bbox (boneRawShape b)).zmax + b / 2))
        ((bbox (boneRawShape b)).zmax + b / 2))
        ((bbox (boneRawShape b)).zmax + b / 2) = b
      rw [h1max, h2max, hbmax]
      simp only [add_zero, add_halves]
      rw [max_eq_right (le_of_lt hb)]
      simp
    · show (max (max (max (max (max ((bbox (frame1Shape a c d n)).zmax + 0)
        ((bbox (frame2Shape a c d n b)).zmax + 0))
        ((bbox (boneRawShape b)).zmax + b / 2))
        ((bbox (boneRawShape b)).zmax + b / 2))
        ((bbox (boneRawShape b)).zmax + b / 2))
        ((bbox (boneRawShape b)).zmax + b / 2)) -
        (min (min (min (min (min ((bbox (frame1Shape a c d n)).zmin + 0)
        ((bbox (frame2Shape a c d n b)).zmin + 0))
        ((bbox (boneRawShape b)).zmin + b / 2))
        ((bbox (boneRawShape b)).zmin + b / 2))
        ((bbox (boneRawShape b)).zmin + b / 2))
        ((bbox (boneRawShape b)).zmin + b / 2)) = b
      rw [h1min, h2min, hbmin, h1max, h2max, hbmax]
      simp only [add_zero, zero_add, neg_add_cancel, add_halves]
      rw [min_eq_left hple, max_eq_right (le_of_lt hb)]
      simp
  · intro pl hpl
    simp only [List.drop_succ_cons, List.drop_zero] at hpl
    have hz : (bbox (boneRawShape b)).zmin + b / 2 = 0 ∧
        (bbox (boneRawShape b)).zmax + b / 2 = b := by
      rw [hbmin, hbmax]
      constructor <;> ring
    rcases List.mem_cons.mp hpl with rfl | hpl
    · exact hz
    · rcases List.mem_cons.mp hpl with rfl | hpl
      · exact hz
      · rcases List.mem_cons.mp hpl with rfl | hpl
        · exact hz
        · rcases List.mem_cons.mp hpl with rfl | hpl
          · exact hz
          · cases hpl

/-- Claim C2 witness: the Z-span theorem applied at a=90, c=1.6, d=10, n=10,
b=120. -/
theorem assembly_z_span_witness :
    PLATE_T < 120 ∧
    (∃ bx, composedBox (make_assembly 90 (8/5) 10 10 120) = some bx ∧
        bx.zmin = 0 ∧ bx.zmax = 120 ∧ bx.zmax - bx.zmin = 120) :=
  ⟨by norm_num [PLATE_T],
    (assembly_z_span 90 (8/5) 10 10 120 (by norm_num [PLATE_T])).1⟩

/-- The left rail mirrors onto the right rail across the Y axis. -/
theorem neg_leftRailX (a : ℚ) : -leftRailX a = rightRailX a := by
  unfold leftRailX rightRailX
  ring

/-- The right rail mirrors onto the left rail across the Y axis. -/
theorem neg_rightRailX (a : ℚ) : -rightRailX a = leftRailX a := by
  unfold leftRailX rightRailX
  ring

/-- Plate membership is X-mirror invariant. -/
theorem platePart_negx (a c d : ℚ) (n : ℕ) (x y z : ℚ) :
    platePart a c d n (-x) y z ↔ platePart a c d n x y z := by
  unfold platePart
  rw [inIv_negv, neg_zero]

/-- Plate membership is Y-mirror invariant. -/
theorem platePart_negy (a c d : ℚ) (n : ℕ) (x y z : ℚ) :
    platePart a c d n x (-y) z ↔ platePart a c d n x y z := by
  unfold platePart
  rw [inIv_negv, neg_zero]

/-- Window membership is X-mirror invariant. -/
theorem windowPart_negx (a c d : ℚ) (n : ℕ) (x y z : ℚ) :
    windowPart a c d n (-x) y z ↔ windowPart a c d n x y z := by
  unfold windowPart
  rw [inIv_negv, neg_zero]

/-- Window membership is Y-mirror invariant. -/
theorem windowPart_negy (a c d : ℚ) (n : ℕ) (x y z : ℚ) :
    windowPart a c d n x (-y) z ↔ windowPart a c d n x y z := by
  unfold windowPart
  rw [inIv_negv, neg_zero]

/-- Rail membership is X-mirror invariant (left and right rails swap). -/
theorem railPart_negx (a c d : ℚ) (n : ℕ) (x y z : ℚ) :
    railPart a c d n (-x) y z ↔ railPart a c d n x y z := by
  unfold railPart
  rw [inIv_negv, inIv_negv, neg_leftRailX, neg_rightRailX]
  tauto

/-- Rail membership is Y-mirror invariant. -/
theorem railPart_negy (a c d : ℚ) (n : ℕ) (x y z : ℚ) :
    railPart a c d n x (-y) z ↔ railPart a c d n x y z := by
  unfold railPart
  rw [inIv_negv, neg_zero]

/-- Slot center iy mirrors onto slot center n-1-i across the X axis. -/
theorem slotCenterQ_flip (c d : ℚ) (n : ℕ) (i : ℕ) (hi : i < n) :
    slotCenterQ c d n (n - 1 - i) = -slotCenterQ c d n i := by
  have he : n - 1 - i = n - (1 + i) := by omega
  have h1 : 1 + i ≤ n := by omega
  unfold slotCenterQ y0Slots innerY active_height
  rw [he, Nat.cast_sub h1]
  push_cast
  ring

/-- Hitting some slot is invariant under negating the Y coordinate. -/
theorem slotHit_negy (c d : ℚ) (n : ℕ) (y : ℚ) :
    (∃ i ∈ List.range n, inIv (slotCenterQ c d n i) (c / 2) (-y)) ↔
    (∃ i ∈ List.range n, inIv (slotCenterQ c d n i) (c / 2) y) := by
  have dir : ∀ w : ℚ,
      (∃ i ∈ List.range n, inIv (slotCenterQ c d n i) (c / 2) (-w)) →
      ∃ i ∈ List.range n, inIv (slotCenterQ c d n i) (c / 2) w := by
    rintro w ⟨i, hi, hin⟩
    have hi2 := List.mem_range.mp hi
    refine ⟨n - 1 - i, List.mem_range.mpr (by omega), ?_⟩
    rw [slotCenterQ_flip c d n i hi2]
    exact inIv_negv.mp hin
  constructor
  · exact dir y
  · intro h
    have h2 := dir (-y)
    rw [neg_neg] at h2
    exact h2 h

/-- Slot membership is X-mirror invariant. -/
theorem slotPart_negx (a c d : ℚ) (n : ℕ) (x y z : ℚ) :
    slotPart a c d n (-x) y z ↔ slotPart a c d n x y z := by
  unfold slotPart
  rw [inIv_negv, inIv_negv, neg_leftRailX, neg_rightRailX]
  tauto

/-- Slot membership is Y-mirror invariant. -/
theorem slotPart_negy (a c d : ℚ) (n : ℕ) (x y z : ℚ) :
    slotPart a c d n x (-y) z ↔ slotPart a c d n x y z := by
  unfold slotPart
  rw [slotHit_negy]

/-- The connector center set is closed under negating the X coordinate. -/
theorem connCenters_negx (a c d : ℚ) (n : ℕ) (q : ℚ × ℚ)
    (hq : q ∈ connCenters a c d n) : (-q.1, q.2) ∈ connCenters a c d n := by
  simp only [connCenters, List.mem_cons, List.not_mem_nil, or_false] at hq ⊢
  rcases hq with rfl | rfl | rfl | rfl
  · exact Or.inr (Or.inl (by rw [Prod.mk.injEq]; exact ⟨by ring, rfl⟩))
  · exact Or.inl (by rw [Prod.mk.injEq]; exact ⟨by ring, rfl⟩)
  · exact Or.inr (Or.inr (Or.inr (by rw [Prod.mk.injEq]; exact ⟨by ring, rfl⟩)))
  · exact Or.inr (Or.inr (Or.inl (by rw [Prod.mk.injEq]; exact ⟨by ring, rfl⟩)))

/-- The connector center set is closed under negating the Y coordinate. -/
theorem connCenters_negy (a c d : ℚ) (n : ℕ) (q : ℚ × ℚ)
    (hq : q ∈ connCenters a c d n) : (q.1, -q.2) ∈ connCenters a c d n := by
  simp only [connCenters, List.mem_cons, List.not_mem_nil, or_false] at hq ⊢
  rcases hq with rfl | rfl | rfl | rfl
  · exact Or.inr (Or.inr (Or.inl (by rw [Prod.mk.injEq]; exact ⟨rfl, by ring⟩)))
  · exact Or.inr (Or.inr (Or.inr (by rw [Prod.mk.injEq]; exact ⟨rfl, by ring⟩)))
  · exact Or.inl (by rw [Prod.mk.injEq]; exact ⟨rfl, by ring⟩)
  · exact Or.inr (Or.inl (by rw [Prod.mk.injEq]; exact ⟨rfl, by ring⟩))

/-- Connector cut membership is X-mirror invariant. -/
theorem connPart_negx (a c d : ℚ) (n : ℕ) (x y z : ℚ) :
    connPart a c d n (-x) y z ↔ connPart a c d n x y z := by
  have dir : ∀ w : ℚ, connPart a c d n (-w) y z → connPart a c d n w y z := by
    rintro w ⟨q, hq, hx, hy, hz⟩
    exact ⟨(-q.1, q.2), connCenters_negx a c d n q hq, inIv_negv.mp hx, hy, hz⟩
  constructor
  · exact dir x
  · intro h
    have h2 := dir (-x)
    rw [neg_neg] at h2
    exact h2 h

/-- Connector cut membership is Y-mirror invariant. -/
theorem connPart_negy (a c d : ℚ) (n : ℕ) (x y z : ℚ) :
    connPart a c d n x (-y) z ↔ connPart a c d n x y z := by
  have dir : ∀ w : ℚ, connPart a c d n x (-w) z → connPart a c d n x w z := by
    rintro w ⟨q, hq, hx, hy, hz⟩
    exact ⟨(q.1, -q.2), connCenters_negy a c d n q hq, hx, inIv_negv.mp hy, hz⟩
  constructor
  · exact dir y
  · intro h
    have h2 := dir (-y)
    rw [neg_neg] at h2
    exact h2 h

/-- Mirroring the X coordinate in a wedge triangle flips its edge and its
direction sign. -/
theorem triMem_negx (xe sgn x z : ℚ) :
    triMem xe sgn (-x) z ↔ triMem (-xe) (-sgn) x z := by
  unfold triMem
  constructor <;> rintro ⟨h1, h2, h3⟩ <;> exact ⟨h1, by nlinarith, by nlinarith⟩

/-- Wedge membership is X-mirror invariant. -/
theorem wedgePart_negx (a c d : ℚ) (n : ℕ) (x y z : ℚ) :
    wedgePart a c d n (-x) y z ↔ wedgePart a c d n x y z := by
  have dir : ∀ w : ℚ, wedgePart a c d n (-w) y z → wedgePart a c d n w y z := by
    rintro w ⟨q, hq, hy, htri⟩
    refine ⟨(-q.1, q.2), connCenters_negx a c d n q hq, hy, ?_⟩
    rcases htri with h | h
    · refine Or.inr ?_
      have h2 := (triMem_negx (q.1 - CONNECTOR_W / 2) (-1) w z).mp h
      have e1 : -(q.1 - CONNECTOR_W / 2) = -q.1 + CONNECTOR_W / 2 := by ring
      have e2 : -(-1 : ℚ) = 1 := by norm_num
      rw [e1, e2] at h2
      exact h2
    · refine Or.inl ?_
      have h2 := (triMem_negx (q.1 + CONNECTOR_W / 2) 1 w z).mp h
      have e1 : -(q.1 + CONNECTOR_W / 2) = -q.1 - CONNECTOR_W / 2 := by ring
      rw [e1] at h2
      exact h2
  constructor
  · exact dir x
  · intro h
    have h2 := dir (-x)
    rw [neg_neg] at h2
    exact h2 h

/-- Wedge membership is Y-mirror invariant. -/
theorem wedgePart_negy (a c d : ℚ) (n : ℕ) (x y z : ℚ) :
    wedgePart a c d n x (-y) z ↔ wedgePart a c d n x y z := by
  have dir : ∀ w : ℚ, wedgePart a c d n x (-w) z → wedgePart a c d n x w z := by
    rintro w ⟨q, hq, hy, htri⟩
    exact ⟨(q.1, -q.2), connCenters_negy a c d n q hq, inIv_negv.mp hy, htri⟩
  constructor
  · exact dir y
  · intro h
    have h2 := dir (-y)
    rw [neg_neg] at h2
    exact h2 h

/-- Claim C8: the make_frame solid is invariant under the mirrors x to -x
and y to -y: point membership in the frame body (plate minus window, rails
minus the n slot cuts, minus the four connector cutouts and the eight
cable-chamfer wedges) is preserved by both reflections, and the target
point set of the cosmetic connector-top chamfer selection is closed under
both reflections (the outer corner chamfers act on the +X and -X faces
alike by construction). -/
theorem frame_mirror_symmetry (a c d : ℚ) (n : ℕ) (hn : 1 ≤ n) (ha : 0 < a)
    (hc : 0 < c) (hd : 0 < d) :
    (∀ x y z, FrameMemProp a c d n (-x) y z ↔ FrameMemProp a c d n x y z) ∧
    (∀ x y z, FrameMemProp a c d n x (-y) z ↔ FrameMemProp a c d n x y z) ∧
    (∀ q ∈ connTopChamferPts a c d n,
        (-q.1, q.2.1, q.2.2) ∈ connTopChamferPts a c d n ∧
        (q.1, -q.2.1, q.2.2) ∈ connTopChamferPts a c d n) := by
  refine ⟨?_, ?_, ?_⟩
  · intro x y z
    unfold FrameMemProp
    rw [platePart_negx, windowPart_negx, railPart_negx, slotPart_negx,
      connPart_negx, wedgePart_negx]
  · intro x y z
    unfold FrameMemProp
    rw [platePart_negy, windowPart_negy, railPart_negy, slotPart_negy,
      connPart_negy, wedgePart_negy]
  · intro q hq
    simp only [connTopChamferPts, connCenters, List.foldr_cons, List.foldr_nil,
      List.mem_cons, List.not_mem_nil, or_false] at hq ⊢
    rcases hq with rfl | rfl | rfl | rfl | rfl | rfl | rfl | rfl
    · exact ⟨Or.inr (Or.inr (Or.inr (Or.inl (by rw [Prod.mk.injEq, Prod.mk.injEq]; exact ⟨by ring, rfl, rfl⟩)))),
        Or.inr (Or.inr (Or.inr (Or.inr (Or.inl (by rw [Prod.mk.injEq, Prod.mk.injEq]; exact ⟨rfl, by ring, rfl⟩)))))⟩
    · exact ⟨Or.inr (Or.inr (Or.inl (by rw [Prod.mk.injEq, Prod.mk.injEq]; exact ⟨by ring, rfl, rfl⟩))),
        Or.inr (Or.inr (Or.inr (Or.inr (Or.inr (Or.inl (by rw [Prod.mk.injEq, Prod.mk.injEq]; exact ⟨rfl, by ring, rfl⟩))))))⟩
    · exact ⟨Or.inr (Or.inl (by rw [Prod.mk.injEq, Prod.mk.injEq]; exact ⟨by ring, rfl, rfl⟩)),
        Or.inr (Or.inr (Or.inr (Or.inr (Or.inr (Or.inr (Or.inl (by rw [Prod.mk.injEq, Prod.mk.injEq]; exact ⟨rfl, by ring, rfl⟩)))))))⟩
    · exact ⟨Or.inl (by rw [Prod.mk.injEq, Prod.mk.injEq]; exact ⟨by ring, rfl, rfl⟩),
        Or.inr (Or.inr (Or.inr (Or.inr (Or.inr (Or.inr (Or.inr ((by rw [Prod.mk.injEq, Prod.mk.injEq]; exact ⟨rfl, by ring, rfl⟩))))))))⟩
    · exact ⟨Or.inr (Or.inr (Or.inr (Or.inr (Or.inr (Or.inr (Or.inr ((by rw [Prod.mk.injEq, Prod.mk.injEq]; exact ⟨by ring, rfl, rfl⟩)))))))),
        Or.inl (by rw [Prod.mk.injEq, Prod.mk.injEq]; exact ⟨rfl, by ring, rfl⟩)⟩
    · exact ⟨Or.inr (Or.inr (Or.inr (Or.inr (Or.inr (Or.inr (Or.inl (by rw [Prod.mk.injEq, Prod.mk.injEq]; exact ⟨by ring, rfl, rfl⟩))))))),
        Or.inr (Or.inl (by rw [Prod.mk.injEq, Prod.mk.injEq]; exact ⟨rfl, by ring, rfl⟩))⟩
    · exact ⟨Or.inr (Or.inr (Or.inr (Or.inr (Or.inr (Or.inl (by rw [Prod.mk.injEq, Prod.mk.injEq]; exact ⟨by ring, rfl, rfl⟩)))))),
        Or.inr (Or.inr (Or.inl (by rw [Prod.mk.injEq, Prod.mk.injEq]; exact ⟨rfl, by ring, rfl⟩)))⟩
    · exact ⟨Or.inr (Or.inr (Or.inr (Or.inr (Or.inl (by rw [Prod.mk.injEq, Prod.mk.injEq]; exact ⟨by ring, rfl, rfl⟩))))),
        Or.inr (Or.inr (Or.inr (Or.inl (by rw [Prod.mk.injEq, Prod.mk.injEq]; exact ⟨rfl, by ring, rfl⟩))))⟩

/-- Claim C8 witness: the mirror symmetry theorem applied at a=90, c=1.6,
d=10, n=10 and evaluated at the point (50, 7, 0) and its two mirror
images. -/
theorem frame_mirror_symmetry_witness :
    1 ≤ 10 ∧ (0 : ℚ) < 90 ∧ (0 : ℚ) < 8/5 ∧ (0 : ℚ) < 10 ∧
    (FrameMemProp 90 (8/5) 10 10 (-50) 7 0 ↔ FrameMemProp 90 (8/5) 10 10 50 7 0) ∧
    (FrameMemProp 90 (8/5) 10 10 50 (-7) 0 ↔ FrameMemProp 90 (8/5) 10 10 50 7 0) := by
  have h := frame_mirror_symmetry 90 (8/5) 10 10 (by norm_num) (by norm_num)
    (by norm_num) (by norm_num)
  exact ⟨by norm_num, by norm_num, by norm_num, by norm_num, h.1 50 7 0, h.2.1 50 7 0⟩
